import Mathlib

/-!
Verification development for the DrugBot repository: a chat UI (useChat hook,
src/unnamed/part_003) that talks to a streaming tool-call orchestration
service over an SSE-like wire protocol.

Conventions of the shallow embedding:
* The React state updates of the useChat hook are modelled as pure state
  transformers on a ChatState record; each setMessages call in the source
  becomes a function from ChatState to ChatState.
* The randomly generated message ids are passed in as parameters (uid, aid).
* JSON payloads of stream events are modelled as an EventData record holding
  the fields the handlers read; a successfully parsed payload is assumed
  (a JSON parse failure in the source leaves the state unchanged and is not
  relevant to any claim).
* For the wire-format parser, strings are modelled as lists of characters so
  that splitting and trimming can be reasoned about by structural induction.
-/

/-! ## Data model of the chat client (from src/unnamed/part_003 and lib/types usage) -/

/-- Role of a chat message, from the Message type used by the UI. -/
inductive Role
  | user
  | assistant
deriving DecidableEq, Repr

/-- A chat message as kept in the useChat message list. -/
structure Message where
  id : String
  role : Role
  content : String
  timestamp : Nat
  isStreaming : Bool := false
  toolStatus : Option String := none
deriving DecidableEq, Repr

/-- TOOL_DISPLAY_NAMES from part_003 lines 13-25. -/
def TOOL_DISPLAY_NAMES : List (String × String) :=
  [ ("search_adverse_events", "Searching adverse events"),
    ("get_serious_adverse_events", "Fetching serious adverse events"),
    ("get_drug_label", "Looking up drug labeling"),
    ("search_drug_labels", "Searching drug labels"),
    ("search_recalls", "Searching drug recalls"),
    ("get_recent_drug_recalls", "Fetching recent recalls"),
    ("get_recalls_by_classification", "Fetching recalls by classification"),
    ("get_critical_recalls", "Fetching critical recalls"),
    ("search_drug_shortages", "Searching drug shortages"),
    ("get_current_drug_shortages", "Checking current shortages"),
    ("search_shortages_by_manufacturer", "Searching shortages by manufacturer") ]

/-- getToolDisplayName from part_003 lines 27-29. -/
def getToolDisplayName (toolName : String) : String :=
  match TOOL_DISPLAY_NAMES.lookup toolName with
  | some s => s
  | none => "Running " ++ toolName

/-- The fields a stream-event JSON payload can carry, as read by the handlers
in part_003 (text for text_delta, tool_name and tool_args for tool_start,
session_id for done, message for error). -/
structure EventData where
  text : String := ""
  tool_name : String := ""
  tool_args : List (String × String) := []
  session_id : String := ""
  message : String := ""
deriving DecidableEq, Repr

/-- The client state held by the useChat hook: the message list, the loading
flag and the session id ref. -/
structure ChatState where
  messages : List Message
  isLoading : Bool
  sessionId : Option String
deriving DecidableEq, Repr

/-- Whitespace characters removed by the trim calls of the source (the ASCII
whitespace of JS String.prototype.trim that can occur in this protocol). -/
def isWsChar (c : Char) : Bool :=
  c = ' ' || c = '\t' || c = '\n' || c = '\r'

/-- Strip leading and trailing whitespace from a character list. -/
def trimChars (xs : List Char) : List Char :=
  ((xs.dropWhile isWsChar).reverse.dropWhile isWsChar).reverse

/-- JS String.prototype.trim, modelled executably over the character list of
the string (the builtin String.trim is not kernel-reducible). -/
def trimString (s : String) : String :=
  String.mk (trimChars s.data)

/-- Initial hook state (useState([]), useState(false), useRef(null)). -/
def initialChatState : ChatState :=
  { messages := [], isLoading := false, sessionId := none }

/-- The prev.map(msg =&gt; msg.id === id ? f(msg) : msg) pattern used by every
setMessages call in the stream loop of part_003. -/
def updateById (aid : String) (f : Message → Message) (msgs : List Message) : List Message :=
  msgs.map fun msg => if msg.id = aid then f msg else msg

/-- Handler of the text_delta case (part_003 lines 145-155): append the delta
to the in-progress assistant message and clear its tool status. -/
def applyTextDelta (aid : String) (text : String) (s : ChatState) : ChatState :=
  { s with
    messages :=
      updateById aid (fun m => { m with content := m.content ++ text, toolStatus := none })
        s.messages }

/-- Handler of the tool_start case (part_003 lines 157-167): set the tool
status of the in-progress assistant message to the display label. -/
def applyToolStart (aid : String) (tool_name : String) (s : ChatState) : ChatState :=
  { s with
    messages :=
      updateById aid
        (fun m => { m with toolStatus := some (getToolDisplayName tool_name ++ "...") })
        s.messages }

/-- Handler of the tool_end case (part_003 lines 169-178): clear the tool
status of the in-progress assistant message. -/
def applyToolEnd (aid : String) (s : ChatState) : ChatState :=
  { s with
    messages := updateById aid (fun m => { m with toolStatus := none }) s.messages }

/-- Handler of the done case (part_003 lines 180-193): store a non-empty
session id in the ref and finalize the in-progress assistant message. -/
def applyDone (aid : String) (session_id : String) (s : ChatState) : ChatState :=
  { s with
    sessionId := if session_id = "" then s.sessionId else some session_id,
    messages :=
      updateById aid (fun m => { m with isStreaming := false, toolStatus := none })
        s.messages }

/-- Handler of the error case (part_003 lines 195-210): keep any partial
content (msg.content || fallback), stop streaming, clear tool status. -/
def applyError (aid : String) (message : String) (s : ChatState) : ChatState :=
  { s with
    messages :=
      updateById aid
        (fun m => { m with
          content :=
            if m.content = "" then "Sorry, an error occurred: " ++ message else m.content,
          isStreaming := false,
          toolStatus := none })
        s.messages }

/-- The switch on the event tag in the stream loop of part_003 lines 144-211.
An unrecognized tag falls through the switch and leaves the state unchanged. -/
def dispatchEvent (aid : String) (s : ChatState) (e : String × EventData) : ChatState :=
  match e.1 with
  | "text_delta" => applyTextDelta aid e.2.text s
  | "tool_start" => applyToolStart aid e.2.tool_name s
  | "tool_end" => applyToolEnd aid s
  | "done" => applyDone aid e.2.session_id s
  | "error" => applyError aid e.2.message s
  | _ => s

/-- How the stream consumed by one sendMessage call terminated: the reader
reported done (normal end of body), the fetch was aborted (AbortError catch
branch), or the fetch or read threw some other error (generic catch branch). -/
inductive StreamOutcome
  | ended
  | aborted
  | failed
deriving DecidableEq, Repr

/-- Fallback text of the generic catch branch (part_003 line 244). -/
def connectErrorText : String :=
  "Sorry, I encountered an error connecting to the server. Please try again."

/-- The state update run after the event loop, by outcome: lines 218-225
(stream ended without done), lines 227-235 (AbortError) and lines 238-250
(generic catch) of part_003. -/
def finalizeTurn (aid : String) (outcome : StreamOutcome) (s : ChatState) : ChatState :=
  match outcome with
  | .ended =>
    { s with
      messages := s.messages.map fun m =>
        if m.id = aid ∧ m.isStreaming = true
        then { m with isStreaming := false, toolStatus := none } else m }
  | .aborted =>
    { s with
      messages :=
        updateById aid (fun m => { m with isStreaming := false, toolStatus := none })
          s.messages }
  | .failed =>
    { s with
      messages :=
        updateById aid
          (fun m => { m with
            content := if m.content = "" then connectErrorText else m.content,
            isStreaming := false,
            toolStatus := none })
          s.messages }

/-- Request body sent by sendMessage (part_003 lines 109-112). -/
structure ChatRequest where
  message : String
  session_id : Option String
deriving DecidableEq, Repr

/-- One full run of sendMessage (part_003 lines 71-255) as a pure function.
Inputs: the current hook state, the raw input string, the two generated ids,
a timestamp, the tagged events delivered by the stream (in order, already
framed and JSON-parsed), and how the stream terminated. Output: the final
hook state and the request body that was sent (none when the guard on the
trimmed input returned early and no fetch happened). -/
def sendMessage (s : ChatState) (content : String) (uid aid : String) (ts : Nat)
    (events : List (String × EventData)) (outcome : StreamOutcome) :
    ChatState × Option ChatRequest :=
  if trimString content = "" then (s, none)
  else
    let userMessage : Message :=
      { id := uid, role := .user, content := trimString content, timestamp := ts }
    let streamingMessage : Message :=
      { id := aid, role := .assistant, content := "", timestamp := ts, isStreaming := true }
    let body : ChatRequest := { message := trimString content, session_id := s.sessionId }
    let s1 : ChatState :=
      { s with messages := s.messages ++ [userMessage, streamingMessage], isLoading := true }
    let s2 := events.foldl (dispatchEvent aid) s1
    let s3 := finalizeTurn aid outcome s2
    ({ s3 with isLoading := false }, some body)

/-- clearMessages from part_003 lines 257-263: empty the list and null the
session ref. -/
def clearMessages (s : ChatState) : ChatState :=
  { s with messages := [], sessionId := none }

/-! ## Message-level view of the event handlers

Each handler touches the message list only through the updateById pattern, so
the whole event loop acts pointwise on messages. The definitions below state
that action once per event and once per stream, which the theorems use to
separate the in-progress assistant message from all other messages. -/

/-- The effect of a single dispatched event on one message whose id matches
the in-progress assistant id (read off the five handlers of part_003). -/
def eventMsgUpdate (e : String × EventData) (m : Message) : Message :=
  match e.1 with
  | "text_delta" => { m with content := m.content ++ e.2.text, toolStatus := none }
  | "tool_start" => { m with toolStatus := some (getToolDisplayName e.2.tool_name ++ "...") }
  | "tool_end" => { m with toolStatus := none }
  | "done" => { m with isStreaming := false, toolStatus := none }
  | "error" =>
    { m with
      content := if m.content = "" then "Sorry, an error occurred: " ++ e.2.message else m.content,
      isStreaming := false,
      toolStatus := none }
  | _ => m

/-- The effect of a whole event stream on the in-progress assistant message. -/
def applyEvents (events : List (String × EventData)) (m : Message) : Message :=
  events.foldl (fun m e => eventMsgUpdate e m) m

/-- The effect of the post-loop finalization on the assistant message. -/
def finalizeMsg (outcome : StreamOutcome) (m : Message) : Message :=
  match outcome with
  | .ended => if m.isStreaming = true then { m with isStreaming := false, toolStatus := none } else m
  | .aborted => { m with isStreaming := false, toolStatus := none }
  | .failed =>
    { m with
      content := if m.content = "" then connectErrorText else m.content,
      isStreaming := false,
      toolStatus := none }

theorem eventMsgUpdate_id (e : String × EventData) (m : Message) :
    (eventMsgUpdate e m).id = m.id := by
  unfold eventMsgUpdate; split <;> rfl

theorem eventMsgUpdate_role (e : String × EventData) (m : Message) :
    (eventMsgUpdate e m).role = m.role := by
  unfold eventMsgUpdate; split <;> rfl

theorem eventMsgUpdate_timestamp (e : String × EventData) (m : Message) :
    (eventMsgUpdate e m).timestamp = m.timestamp := by
  unfold eventMsgUpdate; split <;> rfl

theorem applyEvents_id (events : List (String × EventData)) (m : Message) :
    (applyEvents events m).id = m.id := by
  induction events generalizing m with
  | nil => rfl
  | cons e es ih => simp [applyEvents, List.foldl_cons] at ih ⊢; rw [ih, eventMsgUpdate_id]

theorem applyEvents_role (events : List (String × EventData)) (m : Message) :
    (applyEvents events m).role = m.role := by
  induction events generalizing m with
  | nil => rfl
  | cons e es ih => simp [applyEvents, List.foldl_cons] at ih ⊢; rw [ih, eventMsgUpdate_role]

theorem applyEvents_timestamp (events : List (String × EventData)) (m : Message) :
    (applyEvents events m).timestamp = m.timestamp := by
  induction events generalizing m with
  | nil => rfl
  | cons e es ih => simp [applyEvents, List.foldl_cons] at ih ⊢; rw [ih, eventMsgUpdate_timestamp]

/-- A single dispatched event edits the message list pointwise at the
assistant id and leaves every other message alone. -/
theorem dispatchEvent_messages (aid : String) (s : ChatState) (e : String × EventData) :
    (dispatchEvent aid s e).messages = updateById aid (eventMsgUpdate e) s.messages := by
  unfold dispatchEvent eventMsgUpdate
  split <;>
    simp [applyTextDelta, applyToolStart, applyToolEnd, applyDone, applyError, updateById]

/-- Dispatch changes the session id ref only on a done event carrying a
non-empty session id. -/
theorem dispatchEvent_sessionId (aid : String) (s : ChatState) (e : String × EventData) :
    (dispatchEvent aid s e).sessionId =
      if e.1 = "done" ∧ e.2.session_id ≠ "" then some e.2.session_id else s.sessionId := by
  unfold dispatchEvent
  split <;>
    simp_all [applyTextDelta, applyToolStart, applyToolEnd, applyDone, applyError]

theorem dispatchEvent_isLoading (aid : String) (s : ChatState) (e : String × EventData) :
    (dispatchEvent aid s e).isLoading = s.isLoading := by
  unfold dispatchEvent
  split <;> rfl

/-- Folding the dispatcher over a stream acts pointwise on the message list:
messages with the assistant id accumulate the whole stream, all others are
untouched. -/
theorem foldl_dispatchEvent_messages (aid : String) (events : List (String × EventData))
    (s : ChatState) :
    (events.foldl (dispatchEvent aid) s).messages =
      s.messages.map (fun m => if m.id = aid then applyEvents events m else m) := by
  induction events generalizing s with
  | nil => simp [applyEvents]
  | cons e es ih =>
    rw [List.foldl_cons, ih, dispatchEvent_messages]
    unfold updateById
    rw [List.map_map]
    apply List.map_congr_left
    intro m _
    by_cases h : m.id = aid
    · have hid : (eventMsgUpdate e m).id = aid := by rw [eventMsgUpdate_id, h]
      simp [Function.comp, h, hid, applyEvents]
    · simp [Function.comp, h]

/-- The value held by the session id ref after a list of events, starting
from a given ref value. -/
def sessionAfter (events : List (String × EventData)) (sid0 : Option String) : Option String :=
  events.foldl
    (fun acc e => if e.1 = "done" ∧ e.2.session_id ≠ "" then some e.2.session_id else acc) sid0

theorem foldl_dispatchEvent_sessionId (aid : String) (events : List (String × EventData))
    (s : ChatState) :
    (events.foldl (dispatchEvent aid) s).sessionId = sessionAfter events s.sessionId := by
  induction events generalizing s with
  | nil => rfl
  | cons e es ih =>
    rw [List.foldl_cons, ih]
    unfold sessionAfter
    rw [List.foldl_cons, dispatchEvent_sessionId]

theorem foldl_dispatchEvent_isLoading (aid : String) (events : List (String × EventData))
    (s : ChatState) :
    (events.foldl (dispatchEvent aid) s).isLoading = s.isLoading := by
  induction events generalizing s with
  | nil => rfl
  | cons e es ih => rw [List.foldl_cons, ih, dispatchEvent_isLoading]

/-- The post-loop finalization also acts pointwise at the assistant id. -/
theorem finalizeTurn_messages (aid : String) (outcome : StreamOutcome) (s : ChatState) :
    (finalizeTurn aid outcome s).messages =
      s.messages.map (fun m => if m.id = aid then finalizeMsg outcome m else m) := by
  cases outcome with
  | ended =>
    simp only [finalizeTurn, finalizeMsg]
    apply List.map_congr_left
    intro m _
    by_cases h : m.id = aid <;> by_cases h2 : m.isStreaming = true <;> simp [h, h2]
  | aborted => simp [finalizeTurn, finalizeMsg, updateById]
  | failed => simp [finalizeTurn, finalizeMsg, updateById]

theorem finalizeTurn_sessionId (aid : String) (outcome : StreamOutcome) (s : ChatState) :
    (finalizeTurn aid outcome s).sessionId = s.sessionId := by
  cases outcome <;> rfl

/-- The initial streaming assistant message appended by sendMessage. -/
def initialAssistant (aid : String) (ts : Nat) : Message :=
  { id := aid, role := .assistant, content := "", timestamp := ts, isStreaming := true }

/-- Central shape lemma: when the trimmed input is non-empty and the two
generated ids are fresh, one sendMessage run appends exactly the user message
and the streamed-then-finalized assistant message, keeping every prior
message byte-identical. -/
theorem sendMessage_messages_shape (s : ChatState) (content : String) (uid aid : String)
    (ts : Nat) (events : List (String × EventData)) (outcome : StreamOutcome)
    (hc : trimString content ≠ "")
    (hfresh : ∀ m ∈ s.messages, m.id ≠ aid)
    (huid : uid ≠ aid) :
    (sendMessage s content uid aid ts events outcome).1.messages =
      s.messages ++
        [ { id := uid, role := .user, content := trimString content, timestamp := ts },
          finalizeMsg outcome (applyEvents events (initialAssistant aid ts)) ] := by
  unfold sendMessage
  rw [if_neg hc]
  simp only
  rw [finalizeTurn_messages, foldl_dispatchEvent_messages]
  simp only [List.map_append, List.map_map]
  have hpre : ∀ m ∈ s.messages,
      ((fun m => if m.id = aid then finalizeMsg outcome m else m) ∘
        (fun m => if m.id = aid then applyEvents events m else m)) m = m := by
    intro m hm
    simp [Function.comp, hfresh m hm]
  rw [List.map_congr_left hpre, List.map_id']
  congr 1
  simp only [Function.comp, List.map_cons, List.map_nil, initialAssistant]
  have ha : (applyEvents events
      { id := aid, role := Role.assistant, content := "", timestamp := ts,
        isStreaming := true, toolStatus := none }).id = aid := by
    rw [applyEvents_id]
  simp [huid, ha]

theorem sendMessage_sessionId (s : ChatState) (content : String) (uid aid : String)
    (ts : Nat) (events : List (String × EventData)) (outcome : StreamOutcome)
    (hc : trimString content ≠ "") :
    (sendMessage s content uid aid ts events outcome).1.sessionId =
      sessionAfter events s.sessionId := by
  unfold sendMessage
  rw [if_neg hc]
  simp only
  rw [finalizeTurn_sessionId, foldl_dispatchEvent_sessionId]

theorem sendMessage_request (s : ChatState) (content : String) (uid aid : String)
    (ts : Nat) (events : List (String × EventData)) (outcome : StreamOutcome)
    (hc : trimString content ≠ "") :
    (sendMessage s content uid aid ts events outcome).2 =
      some { message := trimString content, session_id := s.sessionId } := by
  unfold sendMessage
  rw [if_neg hc]

/-- Concatenation of all text_delta payloads of a stream, in order. -/
def concatDeltas : List (String × EventData) → String
  | [] => ""
  | e :: es => (if e.1 = "text_delta" then e.2.text else "") ++ concatDeltas es

theorem eventMsgUpdate_content_of_ne_error (e : String × EventData) (m : Message)
    (he : e.1 ≠ "error") :
    (eventMsgUpdate e m).content =
      m.content ++ (if e.1 = "text_delta" then e.2.text else "") := by
  unfold eventMsgUpdate
  split <;> simp_all

theorem eventMsgUpdate_isStreaming_of_ne (e : String × EventData) (m : Message)
    (hd : e.1 ≠ "done") (he : e.1 ≠ "error") :
    (eventMsgUpdate e m).isStreaming = m.isStreaming := by
  unfold eventMsgUpdate
  split <;> simp_all

/-- Absent error events, the assistant content after a stream is the prior
content followed by all text deltas in order. -/
theorem applyEvents_content (events : List (String × EventData)) (m : Message)
    (he : ∀ e ∈ events, e.1 ≠ "error") :
    (applyEvents events m).content = m.content ++ concatDeltas events := by
  induction events generalizing m with
  | nil => simp [applyEvents, concatDeltas]
  | cons e es ih =>
    have h1 : e.1 ≠ "error" := he e (List.mem_cons_self e es)
    have h2 : ∀ x ∈ es, x.1 ≠ "error" := fun x hx => he x (List.mem_cons_of_mem e hx)
    show (applyEvents es (eventMsgUpdate e m)).content = _
    rw [ih (eventMsgUpdate e m) h2, eventMsgUpdate_content_of_ne_error e m h1]
    rw [String.append_assoc]
    rfl

/-- Absent done and error events, the streaming flag is untouched by the
event loop. -/
theorem applyEvents_isStreaming (events : List (String × EventData)) (m : Message)
    (h : ∀ e ∈ events, e.1 ≠ "done" ∧ e.1 ≠ "error") :
    (applyEvents events m).isStreaming = m.isStreaming := by
  induction events generalizing m with
  | nil => rfl
  | cons e es ih =>
    have h1 := h e (List.mem_cons_self e es)
    have h2 : ∀ x ∈ es, x.1 ≠ "done" ∧ x.1 ≠ "error" :=
      fun x hx => h x (List.mem_cons_of_mem e hx)
    show (applyEvents es (eventMsgUpdate e m)).isStreaming = _
    rw [ih (eventMsgUpdate e m) h2, eventMsgUpdate_isStreaming_of_ne e m h1.1 h1.2]

/-! ## Claims about the client (src/unnamed/part_003) -/

/-- C1: every chat request has body (message, session_id with null allowed),
and the stream consumer recognizes exactly the five event tags text_delta,
tool_start, tool_end, done, error, dispatching each to its handler; any
other tag leaves the message state unchanged. -/
theorem wire_protocol_exact (s : ChatState) (content : String) (uid aid : String) (ts : Nat)
    (events : List (String × EventData)) (outcome : StreamOutcome)
    (tag : String) (d : EventData)
    (hc : trimString content ≠ "")
    (ht : tag ∉ ["text_delta", "tool_start", "tool_end", "done", "error"]) :
    (sendMessage s content uid aid ts events outcome).2 =
      some { message := trimString content, session_id := s.sessionId } ∧
    dispatchEvent aid s (tag, d) = s ∧
    dispatchEvent aid s ("text_delta", d) = applyTextDelta aid d.text s ∧
    dispatchEvent aid s ("tool_start", d) = applyToolStart aid d.tool_name s ∧
    dispatchEvent aid s ("tool_end", d) = applyToolEnd aid s ∧
    dispatchEvent aid s ("done", d) = applyDone aid d.session_id s ∧
    dispatchEvent aid s ("error", d) = applyError aid d.message s := by
  refine ⟨sendMessage_request s content uid aid ts events outcome hc, ?_, rfl, rfl, rfl, rfl, rfl⟩
  simp only [List.mem_cons, List.not_mem_nil, or_false, not_or] at ht
  unfold dispatchEvent
  split <;> simp_all

theorem wire_protocol_exact_witness :
    (trimString "What is aspirin?" ≠ "" ∧
      "ping" ∉ ["text_delta", "tool_start", "tool_end", "done", "error"]) ∧
    ((sendMessage initialChatState "What is aspirin?" "u1" "a1" 0 [] .ended).2 =
        some { message := trimString "What is aspirin?", session_id := initialChatState.sessionId } ∧
      dispatchEvent "a1" initialChatState ("ping", {}) = initialChatState ∧
      dispatchEvent "a1" initialChatState ("text_delta", {}) =
        applyTextDelta "a1" (EventData.text {}) initialChatState ∧
      dispatchEvent "a1" initialChatState ("tool_start", {}) =
        applyToolStart "a1" (EventData.tool_name {}) initialChatState ∧
      dispatchEvent "a1" initialChatState ("tool_end", {}) = applyToolEnd "a1" initialChatState ∧
      dispatchEvent "a1" initialChatState ("done", {}) =
        applyDone "a1" (EventData.session_id {}) initialChatState ∧
      dispatchEvent "a1" initialChatState ("error", {}) =
        applyError "a1" (EventData.message {}) initialChatState) :=
  ⟨⟨by decide, by decide⟩,
    wire_protocol_exact initialChatState "What is aspirin?" "u1" "a1" 0 [] .ended "ping" {}
      (by decide) (by decide)⟩

/-- C3: the conversation history is append-only: a sendMessage run with fresh
ids appends exactly two messages (the trimmed user message and the
streamed-then-finalized assistant message) and leaves every previously
completed message, its content, role and order, byte-identical; every stream
event touches only the message whose id is the in-progress assistant id. -/
theorem history_append_only (s : ChatState) (content : String) (uid aid : String) (ts : Nat)
    (events : List (String × EventData)) (outcome : StreamOutcome)
    (hc : trimString content ≠ "")
    (hfresh : ∀ m ∈ s.messages, m.id ≠ aid)
    (huid : uid ≠ aid) :
    (sendMessage s content uid aid ts events outcome).1.messages =
      s.messages ++
        [ { id := uid, role := .user, content := trimString content, timestamp := ts },
          finalizeMsg outcome (applyEvents events (initialAssistant aid ts)) ] :=
  sendMessage_messages_shape s content uid aid ts events outcome hc hfresh huid

def c3State : ChatState :=
  { messages :=
      [ { id := "m0", role := .user, content := "hi", timestamp := 0 },
        { id := "m1", role := .assistant, content := "Hello!", timestamp := 1 } ],
    isLoading := false,
    sessionId := some "sess-1" }

def c3Events : List (String × EventData) :=
  [ ("tool_start", { tool_name := "get_drug_label" }),
    ("tool_end", { tool_name := "get_drug_label" }),
    ("text_delta", { text := "Aspirin is" }),
    ("text_delta", { text := " a pain reliever." }),
    ("done", { session_id := "sess-1" }) ]

theorem history_append_only_witness :
    (trimString "Tell me about aspirin" ≠ "" ∧
      (∀ m ∈ c3State.messages, m.id ≠ "a2") ∧ "u2" ≠ "a2") ∧
    (sendMessage c3State "Tell me about aspirin" "u2" "a2" 2 c3Events .ended).1.messages =
      c3State.messages ++
        [ { id := "u2", role := .user, content := trimString "Tell me about aspirin", timestamp := 2 },
          finalizeMsg .ended (applyEvents c3Events (initialAssistant "a2" 2)) ] :=
  ⟨⟨by decide, by decide, by decide⟩,
    history_append_only c3State "Tell me about aspirin" "u2" "a2" 2 c3Events .ended
      (by decide) (by decide) (by decide)⟩

/-- C4: on an error event the turn keeps any partial assistant text already
streamed: the error handler leaves a non-empty content unchanged and only
clears the streaming flag and tool status; the fallback error text is
substituted only into an empty content. -/
theorem error_event_preserves_partial_text (aid : String) (s : ChatState) (d : EventData)
    (m mEmpty : Message)
    (hm : m.content ≠ "") (hme : mEmpty.content = "") :
    dispatchEvent aid s ("error", d) = applyError aid d.message s ∧
    (dispatchEvent aid s ("error", d)).messages =
      updateById aid (eventMsgUpdate ("error", d)) s.messages ∧
    (eventMsgUpdate ("error", d) m).content = m.content ∧
    (eventMsgUpdate ("error", d) m).isStreaming = false ∧
    (eventMsgUpdate ("error", d) m).toolStatus = none ∧
    (eventMsgUpdate ("error", d) m).id = m.id ∧
    (eventMsgUpdate ("error", d) mEmpty).content = "Sorry, an error occurred: " ++ d.message := by
  refine ⟨rfl, dispatchEvent_messages aid s ("error", d), ?_, rfl, rfl, rfl, ?_⟩
  · show (if m.content = "" then "Sorry, an error occurred: " ++ d.message else m.content) = _
    rw [if_neg hm]
  · show (if mEmpty.content = "" then "Sorry, an error occurred: " ++ d.message
      else mEmpty.content) = _
    rw [if_pos hme]

def c4WithText : Message :=
  { id := "a1", role := .assistant, content := "Aspirin is", timestamp := 0, isStreaming := true }

def c4Empty : Message :=
  { id := "a1", role := .assistant, content := "", timestamp := 0, isStreaming := true }

theorem error_event_preserves_partial_text_witness :
    (c4WithText.content ≠ "" ∧ c4Empty.content = "") ∧
    (dispatchEvent "a1" initialChatState ("error", { message := "quota exceeded" }) =
        applyError "a1" (EventData.message { message := "quota exceeded" }) initialChatState ∧
      (dispatchEvent "a1" initialChatState ("error", { message := "quota exceeded" })).messages =
        updateById "a1" (eventMsgUpdate ("error", { message := "quota exceeded" }))
          initialChatState.messages ∧
      (eventMsgUpdate ("error", { message := "quota exceeded" }) c4WithText).content =
        c4WithText.content ∧
      (eventMsgUpdate ("error", { message := "quota exceeded" }) c4WithText).isStreaming = false ∧
      (eventMsgUpdate ("error", { message := "quota exceeded" }) c4WithText).toolStatus = none ∧
      (eventMsgUpdate ("error", { message := "quota exceeded" }) c4WithText).id = c4WithText.id ∧
      (eventMsgUpdate ("error", { message := "quota exceeded" }) c4Empty).content =
        "Sorry, an error occurred: " ++ EventData.message { message := "quota exceeded" }) :=
  ⟨⟨by decide, by decide⟩,
    error_event_preserves_partial_text "a1" initialChatState { message := "quota exceeded" }
      c4WithText c4Empty (by decide) (by decide)⟩

/-- C7: the first request after a reset carries a null session id; once a
done event delivers a non-empty session id, it is stored and the next
request carries exactly that identifier. -/
theorem session_id_threading (s s2 : ChatState) (c0 c1 c2 : String)
    (u0 a0 u1 a1 u2 a2 : String) (ts0 ts1 ts2 : Nat)
    (evs0 evs1 evs2 : List (String × EventData)) (d : EventData)
    (oc0 oc1 oc2 : StreamOutcome)
    (hc0 : trimString c0 ≠ "") (hc1 : trimString c1 ≠ "") (hc2 : trimString c2 ≠ "")
    (hd : d.session_id ≠ "") :
    (sendMessage (clearMessages s) c0 u0 a0 ts0 evs0 oc0).2 =
      some { message := trimString c0, session_id := none } ∧
    (sendMessage s2 c1 u1 a1 ts1 (evs1 ++ [("done", d)]) oc1).1.sessionId =
      some d.session_id ∧
    (sendMessage (sendMessage s2 c1 u1 a1 ts1 (evs1 ++ [("done", d)]) oc1).1
        c2 u2 a2 ts2 evs2 oc2).2 =
      some { message := trimString c2, session_id := some d.session_id } := by
  have h2 : (sendMessage s2 c1 u1 a1 ts1 (evs1 ++ [("done", d)]) oc1).1.sessionId =
      some d.session_id := by
    rw [sendMessage_sessionId s2 c1 u1 a1 ts1 (evs1 ++ [("done", d)]) oc1 hc1]
    unfold sessionAfter
    rw [List.foldl_append]
    simp [hd]
  refine ⟨?_, h2, ?_⟩
  · rw [sendMessage_request (clearMessages s) c0 u0 a0 ts0 evs0 oc0 hc0]
    rfl
  · rw [sendMessage_request _ c2 u2 a2 ts2 evs2 oc2 hc2, h2]

theorem session_id_threading_witness :
    (trimString "start" ≠ "" ∧ trimString "next" ≠ "" ∧ trimString "more" ≠ "" ∧
      (EventData.session_id { session_id := "sess-9" } ≠ "")) ∧
    ((sendMessage (clearMessages initialChatState) "start" "u0" "a0" 0 [] .ended).2 =
        some { message := trimString "start", session_id := none } ∧
      (sendMessage initialChatState "next" "u1" "a1" 1
          ([("text_delta", { text := "hi" })] ++ [("done", { session_id := "sess-9" })])
          .ended).1.sessionId = some (EventData.session_id { session_id := "sess-9" }) ∧
      (sendMessage
          (sendMessage initialChatState "next" "u1" "a1" 1
            ([("text_delta", { text := "hi" })] ++ [("done", { session_id := "sess-9" })])
            .ended).1 "more" "u2" "a2" 2 [] .ended).2 =
        some { message := trimString "more",
               session_id := some (EventData.session_id { session_id := "sess-9" }) }) :=
  ⟨⟨by decide, by decide, by decide, by decide⟩,
    session_id_threading initialChatState initialChatState "start" "next" "more"
      "u0" "a0" "u1" "a1" "u2" "a2" 0 1 2 [] [("text_delta", { text := "hi" })] []
      { session_id := "sess-9" } .ended .ended .ended
      (by decide) (by decide) (by decide) (by decide)⟩

/-- C9: when the stream ends or is aborted without a done event, the
in-progress assistant message is still finalized: streaming flag cleared,
tool status removed, and exactly the accumulated text deltas kept, with no
error text added. -/
theorem stream_end_without_done_finalizes (s : ChatState) (content : String)
    (uid aid : String) (ts : Nat) (events : List (String × EventData))
    (outcome : StreamOutcome)
    (hc : trimString content ≠ "")
    (hfresh : ∀ m ∈ s.messages, m.id ≠ aid)
    (huid : uid ≠ aid)
    (hnd : ∀ e ∈ events, e.1 ≠ "done")
    (hne : ∀ e ∈ events, e.1 ≠ "error")
    (hoc : outcome = .ended ∨ outcome = .aborted) :
    (sendMessage s content uid aid ts events outcome).1.messages.getLast? =
      some { id := aid, role := .assistant, content := concatDeltas events,
             timestamp := ts, isStreaming := false, toolStatus := none } := by
  rw [sendMessage_messages_shape s content uid aid ts events outcome hc hfresh huid]
  rw [List.getLast?_append]
  have hId := applyEvents_id events (initialAssistant aid ts)
  have hRole := applyEvents_role events (initialAssistant aid ts)
  have hTs := applyEvents_timestamp events (initialAssistant aid ts)
  have hSt : (applyEvents events (initialAssistant aid ts)).isStreaming = true := by
    rw [applyEvents_isStreaming events (initialAssistant aid ts)
      (fun e he => ⟨hnd e he, hne e he⟩)]
    rfl
  have hCo : (applyEvents events (initialAssistant aid ts)).content = concatDeltas events := by
    rw [applyEvents_content events (initialAssistant aid ts) hne]
    simp [initialAssistant]
  rcases hEq : applyEvents events (initialAssistant aid ts) with ⟨i, r, co, t, st, tl⟩
  rw [hEq] at hId hRole hTs hSt hCo
  simp only [initialAssistant] at hId hRole hTs
  cases hId; cases hRole; cases hTs; cases hSt; cases hCo
  rcases hoc with h | h <;> subst h <;> simp [finalizeMsg]

def c9Events : List (String × EventData) :=
  [ ("tool_start", { tool_name := "search_recalls" }),
    ("tool_end", { tool_name := "search_recalls" }),
    ("text_delta", { text := "Recent recalls" }),
    ("text_delta", { text := " include..." }) ]

theorem stream_end_without_done_finalizes_witness :
    (trimString "any recalls?" ≠ "" ∧
      (∀ m ∈ initialChatState.messages, m.id ≠ "a1") ∧ ("u1" : String) ≠ "a1" ∧
      (∀ e ∈ c9Events, e.1 ≠ "done") ∧ (∀ e ∈ c9Events, e.1 ≠ "error")) ∧
    (sendMessage initialChatState "any recalls?" "u1" "a1" 0 c9Events .aborted).1.messages.getLast?
      = some { id := "a1", role := .assistant, content := concatDeltas c9Events,
               timestamp := 0, isStreaming := false, toolStatus := none } :=
  ⟨⟨by decide, by decide, by decide, by decide, by decide⟩,
    stream_end_without_done_finalizes initialChatState "any recalls?" "u1" "a1" 0 c9Events
      .aborted (by decide) (by decide) (by decide) (by decide) (by decide) (Or.inr rfl)⟩

/-- C10: an input that trims to empty is a complete no-op (state unchanged,
no request sent); for non-empty input the request body and the stored user
message carry exactly the trimmed input. -/
theorem empty_input_is_noop (s : ChatState) (cEmpty cReal : String) (uid aid : String)
    (ts : Nat) (events : List (String × EventData)) (outcome : StreamOutcome)
    (h1 : trimString cEmpty = "") (h2 : trimString cReal ≠ "")
    (hfresh : ∀ m ∈ s.messages, m.id ≠ aid) (huid : uid ≠ aid) :
    sendMessage s cEmpty uid aid ts events outcome = (s, none) ∧
    (sendMessage s cReal uid aid ts events outcome).2 =
      some { message := trimString cReal, session_id := s.sessionId } ∧
    ((sendMessage s cReal uid aid ts events outcome).1.messages.drop
        s.messages.length).head? =
      some { id := uid, role := .user, content := trimString cReal, timestamp := ts } := by
  refine ⟨?_, sendMessage_request s cReal uid aid ts events outcome h2, ?_⟩
  · unfold sendMessage
    rw [if_pos h1]
  · rw [sendMessage_messages_shape s cReal uid aid ts events outcome h2 hfresh huid,
      List.drop_left]
    rfl

theorem empty_input_is_noop_witness :
    (trimString "   " = "" ∧ trimString " hi  " ≠ "" ∧
      (∀ m ∈ c3State.messages, m.id ≠ "a7") ∧ ("u7" : String) ≠ "a7") ∧
    (sendMessage c3State "   " "u7" "a7" 3 [] .ended = (c3State, none) ∧
      (sendMessage c3State " hi  " "u7" "a7" 3 [] .ended).2 =
        some { message := trimString " hi  ", session_id := c3State.sessionId } ∧
      ((sendMessage c3State " hi  " "u7" "a7" 3 [] .ended).1.messages.drop
          c3State.messages.length).head? =
        some { id := "u7", role := .user, content := trimString " hi  ", timestamp := 3 }) :=
  ⟨⟨by decide, by decide, by decide, by decide⟩,
    empty_input_is_noop c3State "   " " hi  " "u7" "a7" 3 [] .ended
      (by decide) (by decide) (by decide) (by decide)⟩

/-! ## The orchestration loop (modelled from the spec)

The FastAPI agent host (client.py) that runs the decide/tool/summarize cycle
is not part of src/; only its documentation is. The definitions below are
modelled from the spec, faithful to section 4.1 of the specification:
bounded rounds, sequential tool execution with tool_start/tool_end framing,
adapter failures handed back to the engine as data, engine failures surfaced
as an error event, and a final done event in every case. -/

/-- Role of a turn in the orchestrator history (spec section 3). -/
inductive TurnRole
  | user
  | assistant
  | tool
deriving DecidableEq, Repr

/-- Adapter result shape (spec section 6): success flag, data, error. -/
structure AdapterResult where
  success : Bool
  data : String
  error : Option String
deriving DecidableEq, Repr

/-- A tool invocation requested by the reasoning engine. -/
structure ToolInvocation where
  name : String
  args : List (String × String)
deriving DecidableEq, Repr

/-- Turn content: text, or the structured result of a tool call (spec
section 3: content is text or structured payload). -/
inductive TurnContent
  | text (s : String)
  | toolResult (r : AdapterResult)
deriving DecidableEq, Repr

/-- A conversation turn (spec section 3). -/
structure Turn where
  role : TurnRole
  content : TurnContent
deriving DecidableEq, Repr

/-- Stream events of the wire protocol (spec section 3, StreamEvent). -/
inductive StreamEvent
  | text_delta (text : String)
  | tool_start (tool_name : String) (tool_args : List (String × String))
  | tool_end (tool_name : String)
  | done (session_id : String)
  | error (message : String)
deriving DecidableEq, Repr

/-- A reply of the reasoning engine for one round (spec section 6): either
final answer text (as incremental chunks), or a list of requested tool
invocations; failure models an engine-level fault (network/auth/quota). -/
inductive EngineReply
  | answer (chunks : List String)
  | requestTools (calls : List ToolInvocation)
  | failure (message : String)
deriving DecidableEq, Repr

/-- Modelled from the spec: step 3 of section 4.1. For each requested
invocation in order: emit tool_start, call the adapter, append a tool Turn
carrying the structured result (failures are handed back as data, not
raised), emit tool_end. Returns the emitted events and the appended turns. -/
def runToolCalls (adapter : ToolInvocation → AdapterResult) :
    List ToolInvocation → List StreamEvent × List Turn
  | [] => ([], [])
  | c :: cs =>
    let r := adapter c
    let rest := runToolCalls adapter cs
    (StreamEvent.tool_start c.name c.args :: StreamEvent.tool_end c.name :: rest.1,
      { role := TurnRole.tool, content := TurnContent.toolResult r } :: rest.2)

/-- Modelled from the spec: the bounded decide/tool/summarize cycle of
section 4.1 steps 2-6, with the remaining round budget as fuel. A text reply
is streamed as text_delta events followed by done; an engine failure emits
error then done preserving history; a tool request runs the batch and
recurses; an exhausted budget soft-fails with a done event. -/
def handleTurnAux (sid : String) (engine : List Turn → EngineReply)
    (adapter : ToolInvocation → AdapterResult) :
    Nat → List Turn → List StreamEvent × List Turn
  | 0, hist => ([StreamEvent.done sid], hist)
  | Nat.succ fuel, hist =>
    match engine hist with
    | EngineReply.answer chunks =>
      (chunks.map StreamEvent.text_delta ++ [StreamEvent.done sid],
        hist ++ [{ role := TurnRole.assistant, content := TurnContent.text (String.join chunks) }])
    | EngineReply.failure m =>
      ([StreamEvent.error m, StreamEvent.done sid], hist)
    | EngineReply.requestTools calls =>
      let batch := runToolCalls adapter calls
      let rest := handleTurnAux sid engine adapter fuel (hist ++ batch.2)
      (batch.1 ++ rest.1, rest.2)

/-- Modelled from the spec: handle_turn of section 4.1 — append the user
turn, then run the bounded cycle. -/
def handle_turn (sid : String) (engine : List Turn → EngineReply)
    (adapter : ToolInvocation → AdapterResult) (maxRounds : Nat)
    (hist : List Turn) (user_text : String) : List StreamEvent × List Turn :=
  handleTurnAux sid engine adapter maxRounds
    (hist ++ [{ role := TurnRole.user, content := TurnContent.text user_text }])

/-- Checker for the tool bracketing discipline: tool_start opens a bracket
(only when none is open), tool_end closes the bracket of the same tool name,
and no bracket stays open at the end of the stream. -/
def toolBracketOk : List StreamEvent → Option String → Bool
  | [], cur => cur.isNone
  | StreamEvent.tool_start n _ :: es, none => toolBracketOk es (some n)
  | StreamEvent.tool_start _ _ :: _, some _ => false
  | StreamEvent.tool_end n :: es, some m => if n = m then toolBracketOk es none else false
  | StreamEvent.tool_end _ :: _, none => false
  | _ :: es, cur => toolBracketOk es cur

/-- Checker that the stream carries a done event exactly as its final event:
the first done encountered must be the last event of the list. -/
def doneOnlyAtEnd : List StreamEvent → Bool
  | [] => false
  | StreamEvent.done _ :: es => es.isEmpty
  | _ :: es => doneOnlyAtEnd es

theorem doneOnlyAtEnd_cons_of_ne (e : StreamEvent) (es : List StreamEvent)
    (h : ∀ s, e ≠ StreamEvent.done s) :
    doneOnlyAtEnd (e :: es) = doneOnlyAtEnd es := by
  cases e with
  | done s => exact absurd rfl (h s)
  | text_delta t => rfl
  | tool_start n a => rfl
  | tool_end n => rfl
  | error m => rfl

theorem doneOnlyAtEnd_append_of_no_done (xs es : List StreamEvent)
    (h : ∀ e ∈ xs, ∀ s, e ≠ StreamEvent.done s) :
    doneOnlyAtEnd (xs ++ es) = doneOnlyAtEnd es := by
  induction xs with
  | nil => rfl
  | cons x xs ih =>
    rw [List.cons_append, doneOnlyAtEnd_cons_of_ne x _ (h x (List.mem_cons_self x xs))]
    exact ih fun e he => h e (List.mem_cons_of_mem x he)

theorem runToolCalls_events_shape (adapter : ToolInvocation → AdapterResult)
    (cs : List ToolInvocation) :
    ∀ e ∈ (runToolCalls adapter cs).1,
      (∀ s, e ≠ StreamEvent.done s) ∧ (∀ m, e ≠ StreamEvent.error m) := by
  induction cs with
  | nil => intro e he; cases he
  | cons c cs ih =>
    intro e he
    simp only [runToolCalls, List.mem_cons] at he
    rcases he with h | h | h
    · subst h; exact ⟨(fun s h => nomatch h), (fun m h => nomatch h)⟩
    · subst h; exact ⟨(fun s h => nomatch h), (fun m h => nomatch h)⟩
    · exact ih e h

theorem runToolCalls_turns (adapter : ToolInvocation → AdapterResult)
    (cs : List ToolInvocation) :
    (runToolCalls adapter cs).2 =
      cs.map (fun c =>
        { role := TurnRole.tool, content := TurnContent.toolResult (adapter c) }) := by
  induction cs with
  | nil => rfl
  | cons c cs ih => simp [runToolCalls, ih]

theorem toolBracketOk_textDeltas (chunks : List String) (es : List StreamEvent)
    (cur : Option String) :
    toolBracketOk (chunks.map StreamEvent.text_delta ++ es) cur = toolBracketOk es cur := by
  induction chunks with
  | nil => rfl
  | cons c cs ih => simpa [toolBracketOk] using ih

theorem toolBracketOk_runToolCalls (adapter : ToolInvocation → AdapterResult)
    (cs : List ToolInvocation) (es : List StreamEvent) :
    toolBracketOk ((runToolCalls adapter cs).1 ++ es) none = toolBracketOk es none := by
  induction cs with
  | nil => rfl
  | cons c cs ih => simpa [runToolCalls, toolBracketOk] using ih

/-- Every run of the bounded cycle ends with a done event. -/
theorem handleTurnAux_getLast (sid : String) (engine : List Turn → EngineReply)
    (adapter : ToolInvocation → AdapterResult) :
    ∀ fuel hist, (handleTurnAux sid engine adapter fuel hist).1.getLast? =
      some (StreamEvent.done sid) := by
  intro fuel
  induction fuel with
  | zero => intro hist; rfl
  | succ fuel ih =>
    intro hist
    unfold handleTurnAux
    cases hEng : engine hist with
    | answer chunks => simp [List.getLast?_concat]
    | failure m => rfl
    | requestTools calls => simp [List.getLast?_append, ih]

/-- If the engine never reports an engine-level failure, the cycle emits no
error event. -/
theorem handleTurnAux_no_error (sid : String) (engine : List Turn → EngineReply)
    (adapter : ToolInvocation → AdapterResult)
    (hok : ∀ h m, engine h ≠ EngineReply.failure m) :
    ∀ fuel hist, ∀ e ∈ (handleTurnAux sid engine adapter fuel hist).1,
      ∀ m, e ≠ StreamEvent.error m := by
  intro fuel
  induction fuel with
  | zero =>
    intro hist e he m
    simp only [handleTurnAux, List.mem_singleton] at he
    subst he; intro h; cases h
  | succ fuel ih =>
    intro hist e he m
    unfold handleTurnAux at he
    cases hEng : engine hist with
    | answer chunks =>
      rw [hEng] at he
      simp only [List.mem_append, List.mem_map, List.mem_singleton] at he
      rcases he with ⟨c, _, h⟩ | h
      · subst h; intro h; cases h
      · subst h; intro h; cases h
    | failure m2 => exact absurd hEng (hok hist m2)
    | requestTools calls =>
      rw [hEng] at he
      simp only [List.mem_append] at he
      rcases he with h | h
      · exact (runToolCalls_events_shape adapter calls e h).2 m
      · exact ih (hist ++ (runToolCalls adapter calls).2) e h m

/-- The bracketing discipline holds for every run of the bounded cycle. -/
theorem handleTurnAux_bracket (sid : String) (engine : List Turn → EngineReply)
    (adapter : ToolInvocation → AdapterResult) :
    ∀ fuel hist, toolBracketOk (handleTurnAux sid engine adapter fuel hist).1 none = true := by
  intro fuel
  induction fuel with
  | zero => intro hist; rfl
  | succ fuel ih =>
    intro hist
    unfold handleTurnAux
    cases hEng : engine hist with
    | answer chunks => rw [toolBracketOk_textDeltas]; rfl
    | failure m => rfl
    | requestTools calls => rw [toolBracketOk_runToolCalls]; exact ih _

/-- Every run of the bounded cycle emits its done event as the final event. -/
theorem handleTurnAux_doneEnd (sid : String) (engine : List Turn → EngineReply)
    (adapter : ToolInvocation → AdapterResult) :
    ∀ fuel hist, doneOnlyAtEnd (handleTurnAux sid engine adapter fuel hist).1 = true := by
  intro fuel
  induction fuel with
  | zero => intro hist; rfl
  | succ fuel ih =>
    intro hist
    unfold handleTurnAux
    cases hEng : engine hist with
    | answer chunks =>
      rw [doneOnlyAtEnd_append_of_no_done]
      · rfl
      · intro e he s
        simp only [List.mem_map] at he
        obtain ⟨c, _, h⟩ := he
        subst h; intro h; cases h
    | failure m => rfl
    | requestTools calls =>
      rw [doneOnlyAtEnd_append_of_no_done]
      · exact ih _
      · exact fun e he => (runToolCalls_events_shape adapter calls e he).1

/-- C2: for every engine behavior — including one that requests another tool
call on every round — the decide/tool/summarize cycle terminates within the
fixed round budget (the recursion is total in the fuel), on exhausting the
budget it emits a done event (soft-fail), the stream always ends with done,
and the adversarial always-request-tools engine never produces an error
event. -/
theorem loop_bound_soft_fail (sid : String) (engine engine2 : List Turn → EngineReply)
    (adapter : ToolInvocation → AdapterResult) (maxRounds : Nat) (hist : List Turn)
    (user_text : String)
    (hAll : ∀ h, ∃ calls, engine2 h = EngineReply.requestTools calls) :
    (handle_turn sid engine adapter maxRounds hist user_text).1.getLast? =
      some (StreamEvent.done sid) ∧
    handleTurnAux sid engine adapter 0 hist = ([StreamEvent.done sid], hist) ∧
    (∀ e ∈ (handle_turn sid engine2 adapter maxRounds hist user_text).1,
      ∀ m, e ≠ StreamEvent.error m) := by
  refine ⟨handleTurnAux_getLast sid engine adapter maxRounds _, rfl, ?_⟩
  have hok : ∀ h m, engine2 h ≠ EngineReply.failure m := by
    intro h m hEq
    obtain ⟨calls, hc⟩ := hAll h
    rw [hEq] at hc
    cases hc
  exact handleTurnAux_no_error sid engine2 adapter hok maxRounds _

/-- An engine that requests the same tool call on every round, used to
witness the loop bound. -/
def loopingEngine : List Turn → EngineReply :=
  fun _ => EngineReply.requestTools [{ name := "get_drug_label", args := [("term", "aspirin")] }]

/-- An adapter that always succeeds with fixed data. -/
def okAdapter : ToolInvocation → AdapterResult :=
  fun _ => { success := true, data := "label data", error := none }

theorem loop_bound_soft_fail_witness :
    (∀ h, ∃ calls, loopingEngine h = EngineReply.requestTools calls) ∧
    ((handle_turn "s1" loopingEngine okAdapter 3 [] "tell me").1.getLast? =
        some (StreamEvent.done "s1") ∧
      handleTurnAux "s1" loopingEngine okAdapter 0 [] = ([StreamEvent.done "s1"], []) ∧
      (∀ e ∈ (handle_turn "s1" loopingEngine okAdapter 3 [] "tell me").1,
        ∀ m, e ≠ StreamEvent.error m)) :=
  ⟨fun _ => ⟨_, rfl⟩,
    loop_bound_soft_fail "s1" loopingEngine loopingEngine okAdapter 3 [] "tell me"
      (fun _ => ⟨_, rfl⟩)⟩

/-- C5: in every event stream produced for a turn, each tool_start is
followed by exactly one tool_end of the same tool before the next
tool_start (strict bracketing with no bracket left open), and the done
event is the final event of the stream, so every text_delta precedes it. -/
theorem stream_event_ordering (sid : String) (engine : List Turn → EngineReply)
    (adapter : ToolInvocation → AdapterResult) (maxRounds : Nat) (hist : List Turn)
    (user_text : String) :
    toolBracketOk (handle_turn sid engine adapter maxRounds hist user_text).1 none = true ∧
    doneOnlyAtEnd (handle_turn sid engine adapter maxRounds hist user_text).1 = true :=
  ⟨handleTurnAux_bracket sid engine adapter maxRounds _,
    handleTurnAux_doneEnd sid engine adapter maxRounds _⟩

/-- One unfolding of the bounded cycle when fuel remains. -/
theorem handleTurnAux_succ (sid : String) (engine : List Turn → EngineReply)
    (adapter : ToolInvocation → AdapterResult) (fuel : Nat) (hist : List Turn) :
    handleTurnAux sid engine adapter (fuel + 1) hist =
      match engine hist with
      | EngineReply.answer chunks =>
        (chunks.map StreamEvent.text_delta ++ [StreamEvent.done sid],
          hist ++
            [{ role := TurnRole.assistant, content := TurnContent.text (String.join chunks) }])
      | EngineReply.failure m => ([StreamEvent.error m, StreamEvent.done sid], hist)
      | EngineReply.requestTools calls =>
        ((runToolCalls adapter calls).1 ++
            (handleTurnAux sid engine adapter fuel
              (hist ++ (runToolCalls adapter calls).2)).1,
          (handleTurnAux sid engine adapter fuel
            (hist ++ (runToolCalls adapter calls).2)).2) := rfl

/-- One unfolding of the bounded cycle on a round where the engine requests
tools: it emits exactly the tool batch events and continues on the
augmented history with one unit of fuel spent. -/
theorem handleTurnAux_tools_step (sid : String) (engine : List Turn → EngineReply)
    (adapter : ToolInvocation → AdapterResult) (fuel : Nat) (hist : List Turn)
    (calls : List ToolInvocation)
    (hd : engine hist = EngineReply.requestTools calls) :
    handleTurnAux sid engine adapter (fuel + 1) hist =
      ((runToolCalls adapter calls).1 ++
          (handleTurnAux sid engine adapter fuel
            (hist ++ (runToolCalls adapter calls).2)).1,
        (handleTurnAux sid engine adapter fuel
          (hist ++ (runToolCalls adapter calls).2)).2) := by
  rw [handleTurnAux_succ, hd]

/-- One unfolding of the bounded cycle on a round where the engine answers:
it streams the answer chunks as text_delta events, emits done, and appends
the finished assistant turn. -/
theorem handleTurnAux_answer_step (sid : String) (engine : List Turn → EngineReply)
    (adapter : ToolInvocation → AdapterResult) (fuel : Nat) (hist : List Turn)
    (chunks : List String)
    (ha : engine hist = EngineReply.answer chunks) :
    handleTurnAux sid engine adapter (fuel + 1) hist =
      (chunks.map StreamEvent.text_delta ++ [StreamEvent.done sid],
        hist ++
          [{ role := TurnRole.assistant, content := TurnContent.text (String.join chunks) }]) := by
  rw [handleTurnAux_succ, ha]

/-- C8: an adapter failure is recorded as structured data in the tool Turn
(one tool Turn per requested call, carrying the adapter result verbatim,
success or failure); as long as the engine itself does not fail, the turn
emits no error event and still ends with a done event; and a final
natural-language answer is still produced: when the engine requests the
calls on the first round and answers over the history augmented with the
(failed) tool results, the stream is exactly the tool batch, the answer
chunks as text_delta events and done, and the finished assistant turn
carrying the answer is appended after the tool Turns. -/
theorem adapter_failure_is_data_not_error (sid : String)
    (engine : List Turn → EngineReply) (adapter : ToolInvocation → AdapterResult)
    (calls : List ToolInvocation) (maxRounds fuel : Nat) (hist : List Turn)
    (user_text : String) (chunks : List String)
    (hok : ∀ h m, engine h ≠ EngineReply.failure m)
    (hd : engine (hist ++ [{ role := TurnRole.user, content := TurnContent.text user_text }]) =
      EngineReply.requestTools calls)
    (ha : engine
        ((hist ++ [{ role := TurnRole.user, content := TurnContent.text user_text }]) ++
          (runToolCalls adapter calls).2) =
      EngineReply.answer chunks) :
    (runToolCalls adapter calls).2 =
      calls.map (fun c =>
        { role := TurnRole.tool, content := TurnContent.toolResult (adapter c) }) ∧
    (∀ e ∈ (handle_turn sid engine adapter maxRounds hist user_text).1,
      ∀ m, e ≠ StreamEvent.error m) ∧
    (handle_turn sid engine adapter maxRounds hist user_text).1.getLast? =
      some (StreamEvent.done sid) ∧
    (handle_turn sid engine adapter (fuel + 2) hist user_text).1 =
      (runToolCalls adapter calls).1 ++
        (chunks.map StreamEvent.text_delta ++ [StreamEvent.done sid]) ∧
    (handle_turn sid engine adapter (fuel + 2) hist user_text).2 =
      ((hist ++ [{ role := TurnRole.user, content := TurnContent.text user_text }]) ++
          (runToolCalls adapter calls).2) ++
        [{ role := TurnRole.assistant, content := TurnContent.text (String.join chunks) }] := by
  have h1 := handleTurnAux_tools_step sid engine adapter (fuel + 1)
    (hist ++ [{ role := TurnRole.user, content := TurnContent.text user_text }]) calls hd
  have h2 := handleTurnAux_answer_step sid engine adapter fuel
    ((hist ++ [{ role := TurnRole.user, content := TurnContent.text user_text }]) ++
      (runToolCalls adapter calls).2) chunks ha
  rw [h2] at h1
  exact ⟨runToolCalls_turns adapter calls,
    handleTurnAux_no_error sid engine adapter hok maxRounds _,
    handleTurnAux_getLast sid engine adapter maxRounds _,
    congrArg Prod.fst h1,
    congrArg Prod.snd h1⟩

/-- An adapter that always fails with an upstream timeout. -/
def failingAdapter : ToolInvocation → AdapterResult :=
  fun _ => { success := false, data := "", error := some "upstream timeout" }

/-- An engine that requests one recall lookup on the first round and then
answers by explaining what it saw. -/
def explainEngine : List Turn → EngineReply :=
  fun h =>
    if h.length ≤ 1 then
      EngineReply.requestTools [{ name := "search_recalls", args := [("term", "aspirin")] }]
    else
      EngineReply.answer ["The recall lookup failed: ", "upstream timeout."]

theorem adapter_failure_is_data_not_error_witness :
    ((∀ h m, explainEngine h ≠ EngineReply.failure m) ∧
      explainEngine
          ([] ++ [{ role := TurnRole.user, content := TurnContent.text "recalls?" }]) =
        EngineReply.requestTools
          [{ name := "search_recalls", args := [("term", "aspirin")] }] ∧
      explainEngine
          (([] ++ [{ role := TurnRole.user, content := TurnContent.text "recalls?" }]) ++
            (runToolCalls failingAdapter
              [{ name := "search_recalls", args := [("term", "aspirin")] }]).2) =
        EngineReply.answer ["The recall lookup failed: ", "upstream timeout."]) ∧
    ((runToolCalls failingAdapter
        [{ name := "search_recalls", args := [("term", "aspirin")] }]).2 =
      [{ name := "search_recalls", args := [("term", "aspirin")] }].map (fun c =>
        { role := TurnRole.tool, content := TurnContent.toolResult (failingAdapter c) }) ∧
      (∀ e ∈ (handle_turn "s2" explainEngine failingAdapter 3 [] "recalls?").1,
        ∀ m, e ≠ StreamEvent.error m) ∧
      (handle_turn "s2" explainEngine failingAdapter 3 [] "recalls?").1.getLast? =
        some (StreamEvent.done "s2") ∧
      (handle_turn "s2" explainEngine failingAdapter (1 + 2) [] "recalls?").1 =
        (runToolCalls failingAdapter
            [{ name := "search_recalls", args := [("term", "aspirin")] }]).1 ++
          ((["The recall lookup failed: ", "upstream timeout."].map
              StreamEvent.text_delta) ++ [StreamEvent.done "s2"]) ∧
      (handle_turn "s2" explainEngine failingAdapter (1 + 2) [] "recalls?").2 =
        (([] ++ [{ role := TurnRole.user, content := TurnContent.text "recalls?" }]) ++
            (runToolCalls failingAdapter
              [{ name := "search_recalls", args := [("term", "aspirin")] }]).2) ++
          [{ role := TurnRole.assistant,
             content := TurnContent.text
               (String.join ["The recall lookup failed: ", "upstream timeout."]) }]) :=
  ⟨⟨(fun h m => by unfold explainEngine; split <;> intro hEq <;> cases hEq),
      by decide, by decide⟩,
    adapter_failure_is_data_not_error "s2" explainEngine failingAdapter
      [{ name := "search_recalls", args := [("term", "aspirin")] }] 3 1 [] "recalls?"
      ["The recall lookup failed: ", "upstream timeout."]
      (fun h m => by unfold explainEngine; split <;> intro hEq <;> cases hEq)
      (by decide) (by decide)⟩

/-! ## The wire-format parser (parseSSEEvents, src/unnamed/part_003 lines 36-63)

The read loop of sendMessage normalizes CRLF to LF before handing complete
frames to parseSSEEvents (part_003 line 132), so the parser is embedded over
LF-delimited text. Strings are modelled as character lists; the blank-line
block split, the line split, the trim calls and the startsWith checks below
each transcribe the corresponding string operation of the source. -/

/-- The character list of the event-tag field name with its colon. -/
def eventPrefixC : List Char := ['e', 'v', 'e', 'n', 't', ':']

/-- The character list of the data field name with its colon. -/
def dataPrefixC : List Char := ['d', 'a', 't', 'a', ':']

/-- The character list of the default event type (part_003 line 45). -/
def messageChars : List Char := ['m', 'e', 's', 's', 'a', 'g', 'e']

/-- text.split on the blank-line delimiter (part_003 line 39), over
LF-normalized text: leftmost, non-overlapping split on two consecutive
newline characters. -/
def splitBlocks : List Char → List (List Char)
  | [] => [[]]
  | [c] => [[c]]
  | c1 :: c2 :: rest =>
    if c1 = '\n' ∧ c2 = '\n' then [] :: splitBlocks rest
    else
      match splitBlocks (c2 :: rest) with
      | [] => [[c1]]
      | b :: bs => (c1 :: b) :: bs

/-- trimmed.split on single newlines (part_003 line 48). -/
def splitLines : List Char → List (List Char)
  | [] => [[]]
  | c :: rest =>
    if c = '\n' then [] :: splitLines rest
    else
      match splitLines rest with
      | [] => [[c]]
      | l :: ls => (c :: l) :: ls

/-- The body of the per-block line loop of part_003 lines 48-55: a line
starting with the event tag sets the event type to its trimmed remainder, a
line starting with the data tag sets the data payload to its trimmed
remainder, and every other line (comments such as a ping, unknown fields)
is ignored. -/
def parseLineStep (st : List Char × List Char) (line : List Char) : List Char × List Char :=
  if eventPrefixC.isPrefixOf line then (trimChars (line.drop 6), st.2)
  else if dataPrefixC.isPrefixOf line then (st.1, trimChars (line.drop 5))
  else st

/-- The per-block line loop of part_003 lines 45-55, starting from event
type message and empty data. -/
def parseBlockLines (lines : List (List Char)) : List Char × List Char :=
  lines.foldl parseLineStep (messageChars, [])

/-- One block of part_003 lines 41-59: trim, skip empty blocks, run the line
loop, and keep the event only when its data payload is non-empty. -/
def parseBlock (block : List Char) : Option (List Char × List Char) :=
  if trimChars block = [] then none
  else if (parseBlockLines (splitLines (trimChars block))).2 = [] then none
  else some (parseBlockLines (splitLines (trimChars block)))

/-- parseSSEEvents from part_003 lines 36-63 over LF-normalized text. -/
def parseSSEEvents (text : List Char) : List (List Char × List Char) :=
  (splitBlocks text).filterMap parseBlock

/-- A well-formed wire frame as produced by the stream encoder: an optional
event-type tag line and a data payload line. -/
structure WireFrame where
  tag : Option (List Char)
  data : List Char

/-- Serialize one frame: the tag line when present, then the data line. -/
def renderFrame (f : WireFrame) : List Char :=
  (match f.tag with
    | some t => eventPrefixC ++ (' ' :: t) ++ ['\n']
    | none => []) ++ (dataPrefixC ++ (' ' :: f.data))

/-- Serialize a frame sequence, each frame terminated by the blank-line
delimiter, exactly as the complete slices handed over by the read loop. -/
def renderWire (fs : List WireFrame) : List Char :=
  (fs.map fun f => renderFrame f ++ ['\n', '\n']).flatten

/-- A well-formed field value: no newline inside, and no surrounding
whitespace (the source trims the value anyway). -/
def chunkOk (t : List Char) : Prop :=
  (∀ c ∈ t, c ≠ '\n') ∧
  (∀ c ∈ t.head?, isWsChar c = false) ∧
  (∀ c ∈ t.getLast?, isWsChar c = false)

/-- A well-formed frame: a well-formed tag when present, and a well-formed
non-empty data payload. -/
def frameOk (f : WireFrame) : Prop :=
  (∀ t ∈ f.tag, chunkOk t) ∧ chunkOk f.data ∧ f.data ≠ []

instance (t : List Char) : Decidable (chunkOk t) := by
  unfold chunkOk
  infer_instance

instance (f : WireFrame) : Decidable (frameOk f) := by
  unfold frameOk
  infer_instance

theorem chunkOk_head (t : List Char) (h : chunkOk t) :
    ∀ c, t.head? = some c → isWsChar c = false :=
  fun c hc => h.2.1 c (Option.mem_def.mpr hc)

theorem chunkOk_last (t : List Char) (h : chunkOk t) :
    ∀ c, t.getLast? = some c → isWsChar c = false :=
  fun c hc => h.2.2 c (Option.mem_def.mpr hc)

theorem frameOk_tagOk (f : WireFrame) (t : List Char) (hf : frameOk f)
    (hft : f.tag = some t) : chunkOk t :=
  hf.1 t (Option.mem_def.mpr hft)

theorem dropWhile_eq_self_of_head (p : Char → Bool) (xs : List Char)
    (h : ∀ c, xs.head? = some c → p c = false) : xs.dropWhile p = xs := by
  cases xs with
  | nil => rfl
  | cons c l =>
    exact List.dropWhile_cons_of_neg (by simp [h c rfl])

theorem trimChars_eq_self (xs : List Char)
    (hh : ∀ c, xs.head? = some c → isWsChar c = false)
    (hl : ∀ c, xs.getLast? = some c → isWsChar c = false) : trimChars xs = xs := by
  unfold trimChars
  rw [dropWhile_eq_self_of_head isWsChar xs hh]
  rw [dropWhile_eq_self_of_head isWsChar xs.reverse
    (fun c hc => hl c (by rwa [List.head?_reverse] at hc))]
  exact List.reverse_reverse xs

theorem trimChars_space_cons (t : List Char)
    (hh : ∀ c, t.head? = some c → isWsChar c = false)
    (hl : ∀ c, t.getLast? = some c → isWsChar c = false) : trimChars (' ' :: t) = t := by
  unfold trimChars
  rw [List.dropWhile_cons_of_pos (by rfl)]
  rw [dropWhile_eq_self_of_head isWsChar t hh]
  rw [dropWhile_eq_self_of_head isWsChar t.reverse
    (fun c hc => hl c (by rwa [List.head?_reverse] at hc))]
  exact List.reverse_reverse t

theorem splitLines_cons (c : Char) (rest : List Char) :
    splitLines (c :: rest) =
      if c = '\n' then [] :: splitLines rest
      else
        match splitLines rest with
        | [] => [[c]]
        | l :: ls => (c :: l) :: ls := rfl

theorem splitBlocks_cons₂ (c1 c2 : Char) (rest : List Char) :
    splitBlocks (c1 :: c2 :: rest) =
      if c1 = '\n' ∧ c2 = '\n' then [] :: splitBlocks rest
      else
        match splitBlocks (c2 :: rest) with
        | [] => [[c1]]
        | b :: bs => (c1 :: b) :: bs := rfl

theorem splitLines_no_nl (xs : List Char) (h : ∀ c ∈ xs, c ≠ '\n') :
    splitLines xs = [xs] := by
  induction xs with
  | nil => rfl
  | cons c l ih =>
    rw [splitLines_cons, if_neg (h c (List.mem_cons_self c l))]
    rw [ih fun x hx => h x (List.mem_cons_of_mem c hx)]

theorem splitLines_append (xs ys : List Char) (h : ∀ c ∈ xs, c ≠ '\n') :
    splitLines (xs ++ '\n' :: ys) = xs :: splitLines ys := by
  induction xs with
  | nil =>
    show splitLines ('\n' :: ys) = [] :: splitLines ys
    rw [splitLines_cons, if_pos rfl]
  | cons c xs ih =>
    rw [List.cons_append, splitLines_cons, if_neg (h c (List.mem_cons_self c xs))]
    rw [ih fun x hx => h x (List.mem_cons_of_mem c hx)]

theorem splitBlocks_append (b rest : List Char)
    (h1 : List.Chain' (fun a c => ¬(a = '\n' ∧ c = '\n')) b)
    (h2 : b.getLast? ≠ some '\n') :
    splitBlocks (b ++ '\n' :: '\n' :: rest) = b :: splitBlocks rest := by
  induction b with
  | nil =>
    show splitBlocks ('\n' :: '\n' :: rest) = [] :: splitBlocks rest
    rw [splitBlocks_cons₂, if_pos ⟨rfl, rfl⟩]
  | cons c b ih =>
    cases b with
    | nil =>
      have hc : c ≠ '\n' := by
        intro hEq
        exact h2 (by rw [hEq]; rfl)
      show splitBlocks (c :: '\n' :: '\n' :: rest) = [c] :: splitBlocks rest
      rw [splitBlocks_cons₂, if_neg (fun hp => hc hp.1)]
      rw [splitBlocks_cons₂, if_pos ⟨rfl, rfl⟩]
    | cons c2 b2 =>
      rw [List.chain'_cons] at h1
      have hr := ih h1.2 (by rwa [List.getLast?_cons_cons] at h2)
      rw [List.cons_append] at hr
      rw [List.cons_append, List.cons_append, splitBlocks_cons₂, if_neg h1.1, hr]

theorem isPrefixOf_append_self (xs ys : List Char) : xs.isPrefixOf (xs ++ ys) = true := by
  rw [List.isPrefixOf_iff_prefix]
  exact List.prefix_append xs ys

theorem event_not_prefixOf_data (x : List Char) :
    eventPrefixC.isPrefixOf (dataPrefixC ++ x) = false := rfl

theorem parseLineStep_event (st : List Char × List Char) (t : List Char) :
    parseLineStep st (eventPrefixC ++ (' ' :: t)) = (trimChars (' ' :: t), st.2) := by
  unfold parseLineStep
  rw [if_pos (isPrefixOf_append_self eventPrefixC (' ' :: t))]
  rw [List.drop_left' (show eventPrefixC.length = 6 from rfl)]

theorem parseLineStep_data (st : List Char × List Char) (d : List Char) :
    parseLineStep st (dataPrefixC ++ (' ' :: d)) = (st.1, trimChars (' ' :: d)) := by
  unfold parseLineStep
  rw [if_neg (by rw [event_not_prefixOf_data (' ' :: d)]; exact Bool.false_ne_true)]
  rw [if_pos (isPrefixOf_append_self dataPrefixC (' ' :: d))]
  rw [List.drop_left' (show dataPrefixC.length = 5 from rfl)]

theorem parseLineStep_other (st : List Char × List Char) (line : List Char)
    (h1 : eventPrefixC.isPrefixOf line = false)
    (h2 : dataPrefixC.isPrefixOf line = false) :
    parseLineStep st line = st := by
  unfold parseLineStep
  rw [h1, h2]
  rfl

theorem getLast?_cons_of_ne_nil (c : Char) (l : List Char) (h : l ≠ []) :
    (c :: l).getLast? = l.getLast? := by
  cases l with
  | nil => exact absurd rfl h
  | cons x xs => exact List.getLast?_cons_cons

theorem eventPrefix_no_nl : ∀ c ∈ eventPrefixC, c ≠ '\n' := by decide

theorem dataPrefix_no_nl : ∀ c ∈ dataPrefixC, c ≠ '\n' := by decide

theorem line_no_nl (pre t : List Char) (hp : ∀ c ∈ pre, c ≠ '\n')
    (ht : ∀ c ∈ t, c ≠ '\n') : ∀ c ∈ pre ++ (' ' :: t), c ≠ '\n' := by
  intro c hc
  rcases List.mem_append.mp hc with h | h
  · exact hp c h
  · rcases List.mem_cons.mp h with h2 | h2
    · subst h2; decide
    · exact ht c h2

theorem chain'_of_no_nl (l : List Char) (h : ∀ c ∈ l, c ≠ '\n') :
    List.Chain' (fun a c => ¬(a = '\n' ∧ c = '\n')) l := by
  induction l with
  | nil => exact List.chain'_nil
  | cons c l ih =>
    cases l with
    | nil => exact List.chain'_singleton c
    | cons c2 l2 =>
      rw [List.chain'_cons]
      exact ⟨(fun hp => h c (List.mem_cons_self c _) hp.1),
        ih (fun x hx => h x (List.mem_cons_of_mem c hx))⟩

theorem chain'_line_append (xs ys : List Char) (hx : ∀ c ∈ xs, c ≠ '\n')
    (hy : ∀ c ∈ ys, c ≠ '\n') :
    List.Chain' (fun a c => ¬(a = '\n' ∧ c = '\n')) (xs ++ '\n' :: ys) := by
  rw [List.chain'_append]
  refine ⟨chain'_of_no_nl xs hx, ?_, ?_⟩
  · cases ys with
    | nil => exact List.chain'_singleton _
    | cons y ys2 =>
      rw [List.chain'_cons]
      exact ⟨(fun hp => hy y (List.mem_cons_self y ys2) hp.2),
        chain'_of_no_nl _ (fun x hxm => hy x hxm)⟩
  · intro x hxl y hyh
    have hxm : x ∈ xs := by
      have := List.mem_getLast?_eq_getLast hxl
      obtain ⟨hne, hEq⟩ := this
      rw [hEq]
      exact List.getLast_mem hne
    exact fun hp => hx x hxm hp.1

/-- Parsing a single rendered frame yields its tag (default message) and its
data payload. -/
theorem parseBlock_renderFrame (f : WireFrame) (h : frameOk f) :
    parseBlock (renderFrame f) = some (f.tag.getD messageChars, f.data) := by
  have hdata := h.2.1
  have hne := h.2.2
  cases hft : f.tag with
  | some t =>
    have hct := frameOk_tagOk f t h hft
    have hblock : renderFrame f =
        (eventPrefixC ++ (' ' :: t)) ++ '\n' :: (dataPrefixC ++ (' ' :: f.data)) := by
      unfold renderFrame
      rw [hft]
      show (eventPrefixC ++ (' ' :: t) ++ ['\n']) ++ (dataPrefixC ++ (' ' :: f.data)) = _
      rw [List.append_assoc]
      rfl
    have hl1 : ∀ c ∈ eventPrefixC ++ (' ' :: t), c ≠ '\n' :=
      line_no_nl eventPrefixC t eventPrefix_no_nl hct.1
    have hl2 : ∀ c ∈ dataPrefixC ++ (' ' :: f.data), c ≠ '\n' :=
      line_no_nl dataPrefixC f.data dataPrefix_no_nl hdata.1
    have hl2ne : dataPrefixC ++ (' ' :: f.data) ≠ [] := by simp [dataPrefixC]
    have hlast :
        ((eventPrefixC ++ (' ' :: t)) ++ '\n' :: (dataPrefixC ++ (' ' :: f.data))).getLast? =
          f.data.getLast? := by
      rw [List.getLast?_append_cons, getLast?_cons_of_ne_nil '\n' _ hl2ne,
        List.getLast?_append_cons, getLast?_cons_of_ne_nil ' ' f.data hne]
    have htrim :
        trimChars ((eventPrefixC ++ (' ' :: t)) ++ '\n' :: (dataPrefixC ++ (' ' :: f.data))) =
          (eventPrefixC ++ (' ' :: t)) ++ '\n' :: (dataPrefixC ++ (' ' :: f.data)) := by
      apply trimChars_eq_self
      · intro c hc
        have hh : ((eventPrefixC ++ (' ' :: t)) ++ '\n' ::
            (dataPrefixC ++ (' ' :: f.data))).head? = some 'e' := rfl
        rw [hh] at hc
        cases hc
        rfl
      · intro c hc
        rw [hlast] at hc
        exact chunkOk_last f.data hdata c hc
    have hsplit :
        splitLines ((eventPrefixC ++ (' ' :: t)) ++ '\n' :: (dataPrefixC ++ (' ' :: f.data))) =
          [eventPrefixC ++ (' ' :: t), dataPrefixC ++ (' ' :: f.data)] := by
      rw [splitLines_append _ _ hl1, splitLines_no_nl _ hl2]
    have hparsed :
        parseBlockLines [eventPrefixC ++ (' ' :: t), dataPrefixC ++ (' ' :: f.data)] =
          (t, f.data) := by
      unfold parseBlockLines
      rw [List.foldl_cons, parseLineStep_event, List.foldl_cons, parseLineStep_data,
        List.foldl_nil,
        trimChars_space_cons t (chunkOk_head t hct) (chunkOk_last t hct),
        trimChars_space_cons f.data (chunkOk_head f.data hdata) (chunkOk_last f.data hdata)]
    have hblockne :
        (eventPrefixC ++ (' ' :: t)) ++ '\n' :: (dataPrefixC ++ (' ' :: f.data)) ≠ [] := by
      simp
    rw [hblock]
    unfold parseBlock
    rw [htrim, if_neg hblockne, hsplit, hparsed, if_neg hne]
    rfl
  | none =>
    have hl2 : ∀ c ∈ dataPrefixC ++ (' ' :: f.data), c ≠ '\n' :=
      line_no_nl dataPrefixC f.data dataPrefix_no_nl hdata.1
    have hl2ne : dataPrefixC ++ (' ' :: f.data) ≠ [] := by simp [dataPrefixC]
    have hblock : renderFrame f = dataPrefixC ++ (' ' :: f.data) := by
      unfold renderFrame
      rw [hft]
      rfl
    have hlast : (dataPrefixC ++ (' ' :: f.data)).getLast? = f.data.getLast? := by
      rw [List.getLast?_append_cons, getLast?_cons_of_ne_nil ' ' f.data hne]
    have htrim : trimChars (dataPrefixC ++ (' ' :: f.data)) =
        dataPrefixC ++ (' ' :: f.data) := by
      apply trimChars_eq_self
      · intro c hc
        have hh : (dataPrefixC ++ (' ' :: f.data)).head? = some 'd' := rfl
        rw [hh] at hc
        cases hc
        rfl
      · intro c hc
        rw [hlast] at hc
        exact chunkOk_last f.data hdata c hc
    have hparsed : parseBlockLines [dataPrefixC ++ (' ' :: f.data)] =
        (messageChars, f.data) := by
      unfold parseBlockLines
      rw [List.foldl_cons, parseLineStep_data, List.foldl_nil,
        trimChars_space_cons f.data (chunkOk_head f.data hdata) (chunkOk_last f.data hdata)]
    rw [hblock]
    unfold parseBlock
    rw [htrim, if_neg hl2ne, splitLines_no_nl _ hl2, hparsed, if_neg hne]
    rfl

theorem renderFrame_some (f : WireFrame) (t : List Char) (hft : f.tag = some t) :
    renderFrame f =
      (eventPrefixC ++ (' ' :: t)) ++ '\n' :: (dataPrefixC ++ (' ' :: f.data)) := by
  unfold renderFrame
  rw [hft]
  show (eventPrefixC ++ (' ' :: t) ++ ['\n']) ++ (dataPrefixC ++ (' ' :: f.data)) = _
  rw [List.append_assoc]
  rfl

theorem renderFrame_none (f : WireFrame) (hft : f.tag = none) :
    renderFrame f = dataPrefixC ++ (' ' :: f.data) := by
  unfold renderFrame
  rw [hft]
  rfl

/-- A rendered well-formed frame contains no two consecutive newlines. -/
theorem renderFrame_chain (f : WireFrame) (h : frameOk f) :
    List.Chain' (fun a c => ¬(a = '\n' ∧ c = '\n')) (renderFrame f) := by
  cases hft : f.tag with
  | some t =>
    rw [renderFrame_some f t hft]
    exact chain'_line_append _ _
      (line_no_nl eventPrefixC t eventPrefix_no_nl (frameOk_tagOk f t h hft).1)
      (line_no_nl dataPrefixC f.data dataPrefix_no_nl h.2.1.1)
  | none =>
    rw [renderFrame_none f hft]
    exact chain'_of_no_nl _ (line_no_nl dataPrefixC f.data dataPrefix_no_nl h.2.1.1)

/-- A rendered well-formed frame does not end in a newline. -/
theorem renderFrame_last_ne_nl (f : WireFrame) (h : frameOk f) :
    (renderFrame f).getLast? ≠ some '\n' := by
  have hdata := h.2.1
  have hne := h.2.2
  have hlast : (renderFrame f).getLast? = f.data.getLast? := by
    cases hft : f.tag with
    | some t =>
      rw [renderFrame_some f t hft]
      have hl2ne : dataPrefixC ++ (' ' :: f.data) ≠ [] := by simp [dataPrefixC]
      rw [List.getLast?_append_cons, getLast?_cons_of_ne_nil '\n' _ hl2ne,
        List.getLast?_append_cons, getLast?_cons_of_ne_nil ' ' f.data hne]
    | none =>
      rw [renderFrame_none f hft]
      rw [List.getLast?_append_cons, getLast?_cons_of_ne_nil ' ' f.data hne]
  intro hEq
  rw [hlast] at hEq
  obtain ⟨hpf, hx⟩ := List.mem_getLast?_eq_getLast (Option.mem_def.mpr hEq)
  exact hdata.1 '\n' (hx ▸ List.getLast_mem hpf) rfl

/-- Round trip: a wire text of well-formed frames parses back to exactly its
frames, in order, with absent tags defaulted to message. -/
theorem parseSSEEvents_renderWire (fs : List WireFrame) (h : ∀ f ∈ fs, frameOk f) :
    parseSSEEvents (renderWire fs) =
      fs.map (fun f => (f.tag.getD messageChars, f.data)) := by
  induction fs with
  | nil => rfl
  | cons f fs ih =>
    have hf := h f (List.mem_cons_self f fs)
    have hrest : ∀ x ∈ fs, frameOk x := fun x hx => h x (List.mem_cons_of_mem f hx)
    have hstep : renderWire (f :: fs) = renderFrame f ++ '\n' :: '\n' :: renderWire fs := by
      unfold renderWire
      rw [List.map_cons, List.flatten_cons, List.append_assoc]
      rfl
    rw [hstep]
    unfold parseSSEEvents
    rw [splitBlocks_append _ _ (renderFrame_chain f hf) (renderFrame_last_ne_nl f hf)]
    rw [List.filterMap_cons, parseBlock_renderFrame f hf]
    have ih2 := ih hrest
    unfold parseSSEEvents at ih2
    rw [List.map_cons]
    exact congrArg _ ih2

/-- C6: for every wire text composed of well-formed frames (an event-type
tag line when present, a non-empty data payload line, frames separated by
the blank-line delimiter), parseSSEEvents returns the corresponding
(event, data) pairs in frame order, defaulting the event type to message
when the tag line is absent; a line that is neither a tag line nor a data
line (such as a comment) is ignored by the line loop. -/
theorem parse_sse_frames (fs : List WireFrame) (c : List Char) (lines : List (List Char))
    (h : ∀ f ∈ fs, frameOk f)
    (hc1 : eventPrefixC.isPrefixOf c = false)
    (hc2 : dataPrefixC.isPrefixOf c = false) :
    parseSSEEvents (renderWire fs) =
      fs.map (fun f => (f.tag.getD messageChars, f.data)) ∧
    parseBlockLines (c :: lines) = parseBlockLines lines := by
  refine ⟨parseSSEEvents_renderWire fs h, ?_⟩
  unfold parseBlockLines
  rw [List.foldl_cons, parseLineStep_other _ c hc1 hc2]

def c6Frames : List WireFrame :=
  [ { tag := some ('t' :: 'e' :: 'x' :: 't' :: '_' :: 'd' :: 'e' :: 'l' :: 't' :: 'a' :: []),
      data := 'h' :: 'i' :: [] },
    { tag := none, data := 'x' :: [] } ]

def c6Comment : List Char := ':' :: ' ' :: 'p' :: 'i' :: 'n' :: 'g' :: []

theorem parse_sse_frames_witness :
    ((∀ f ∈ c6Frames, frameOk f) ∧
      eventPrefixC.isPrefixOf c6Comment = false ∧
      dataPrefixC.isPrefixOf c6Comment = false) ∧
    (parseSSEEvents (renderWire c6Frames) =
        c6Frames.map (fun f => (f.tag.getD messageChars, f.data)) ∧
      parseBlockLines (c6Comment :: []) = parseBlockLines []) :=
  ⟨⟨by decide, by decide, by decide⟩,
    parse_sse_frames c6Frames c6Comment [] (by decide) (by decide) (by decide)⟩
